import Mathlib

/-!
Verification of the blbl_up_watch repository (Bilibili new-video watcher).

This file gives a shallow embedding of the core algorithms of the three
Python source files `dp_bilibili_api.py`, `blbl_up_watch.py` and `main.py`,
and proves or refutes the frozen specification claims about them.

Modelling conventions:
* a Python `str` is a `List Char` (`PyStr`);
* a Python `dict` is an insertion-ordered association list with unique keys
  (`PyDict`); assignment `d[k] = v` is `dict_set`, which updates the entry
  in place when the key exists and appends otherwise;
* scalar parameter values (`int` or `str`) are `PyVal`; `PyVal.str` is
  Python's `str(v)`;
* an operation that may raise an uncaught exception returns an `Option`,
  `none` being the raised exception;
* library calls external to the repository (`hashlib.md5().hexdigest()`,
  the HTTP transport) are parameters of the embedding: the MD5 hex digest
  is an abstract function `PyStr → PyStr`, and each network endpoint is an
  oracle `Nat → ApiResp α` giving the response to the n-th attempt.
-/

/-- Model of a Python string: its list of characters. -/
abbrev PyStr := List Char

/-- Model of a scalar Python value appearing in a request-parameter dict. -/
inductive PyVal where
  | intV : Int → PyVal
  | strV : PyStr → PyVal
deriving DecidableEq

/-- Python `str(v)` for a scalar value. -/
def PyVal.str : PyVal → PyStr
  | .intV n => (toString n).toList
  | .strV s => s

/-- Model of a Python dict with string keys: an insertion-ordered
association list.  Real dicts never hold two entries with the same key;
claims that need this carry a `Nodup` hypothesis on `dict_keys`. -/
abbrev PyDict := List (PyStr × PyVal)

/-- The list of keys of a dict, in insertion order. -/
def dict_keys (d : PyDict) : List PyStr := d.map Prod.fst

/-- Python dict assignment `d[k] = v`: if `k` is already a key, the entry is
replaced at its position, otherwise `(k, v)` is appended at the end. -/
def dict_set (d : PyDict) (k : PyStr) (v : PyVal) : PyDict :=
  if d.any (fun kv => kv.1 == k) then
    d.map (fun kv => if kv.1 == k then (k, v) else kv)
  else d ++ [(k, v)]

/-- Ordering of dict entries by key, byte-wise ascending (Python compares
strings by code point, which the `List Char` lexicographic order mirrors). -/
def key_le (p q : PyStr × PyVal) : Prop := p.1 ≤ q.1

instance : DecidableRel key_le :=
  fun p q => (inferInstance : Decidable (p.1 ≤ q.1))

instance : IsTotal (PyStr × PyVal) key_le := ⟨fun a b => le_total a.1 b.1⟩

instance : IsTrans (PyStr × PyVal) key_le := ⟨fun _ _ _ h₁ h₂ => le_trans h₁ h₂⟩

/-- Strict version of `key_le`, used to show sorted dicts with distinct keys
are uniquely determined. -/
def key_lt (p q : PyStr × PyVal) : Prop := p.1 < q.1

instance : IsAntisymm (PyStr × PyVal) key_lt :=
  ⟨fun _ _ h₁ h₂ => absurd h₁ (lt_asymm h₂)⟩

/-- Python `dict(sorted(params.items()))` (blbl_up_watch.py:177,
dp_bilibili_api.py:180).  `sorted` compares `(key, value)` tuples, but a
dict's keys are distinct, so sorting by key alone is the same ordering;
insertion sort is stable like Python's `sorted`. -/
def dict_sorted_by_key (d : PyDict) : PyDict := List.insertionSort key_le d

/-- Characters stripped from every value before signing
(`"!'()*"` in blbl_up_watch.py:181, dp_bilibili_api.py:184). -/
def special_chars : PyStr := "!'()*".toList

/-- Python `''.join(filter(lambda ch: ch not in "!'()*", s))`. -/
def filter_special (s : PyStr) : PyStr :=
  s.filter (fun ch => !(special_chars.contains ch))

/-- Characters that `urllib.parse.quote_plus` leaves unescaped:
ASCII letters, digits and `_ . - ~`. -/
def url_safe (c : Char) : Bool :=
  c.isAlphanum || c = '_' || c = '.' || c = '-' || c = '~'

/-- Uppercase hexadecimal digit for `n < 16`. -/
def hex_digit (n : Nat) : Char :=
  if n < 10 then Char.ofNat (48 + n) else Char.ofNat (55 + n)

/-- UTF-8 encoding of one code point, as byte values. -/
def utf8_bytes (c : Char) : List Nat :=
  let n := c.toNat
  if n < 128 then [n]
  else if n < 2048 then [192 + n / 64, 128 + n % 64]
  else if n < 65536 then [224 + n / 4096, 128 + n / 64 % 64, 128 + n % 64]
  else [240 + n / 262144, 128 + n / 4096 % 64, 128 + n / 64 % 64, 128 + n % 64]

/-- Percent-escape of one byte, `%XX` with uppercase hex. -/
def percent_byte (b : Nat) : PyStr := ['%', hex_digit (b / 16), hex_digit (b % 16)]

/-- Python `urllib.parse.quote_plus`: safe characters kept, space becomes
`+`, everything else percent-encoded per UTF-8 byte. -/
def quote_plus (s : PyStr) : PyStr :=
  s.flatMap (fun c =>
    if url_safe c then [c]
    else if c = ' ' then ['+']
    else (utf8_bytes c).flatMap percent_byte)

/-- Python `urllib.parse.urlencode` on a dict of string values: the pairs in
dict order, each rendered `quote_plus(k) + "=" + quote_plus(v)`, joined by
`&` (blbl_up_watch.py:184, dp_bilibili_api.py:187). -/
def urlencode (pairs : List (PyStr × PyStr)) : PyStr :=
  List.intercalate ['&'] (pairs.map (fun kv => quote_plus kv.1 ++ '=' :: quote_plus kv.2))

/-- The hardcoded 64-entry key-mixing permutation table
(blbl_up_watch.py:18-23, dp_bilibili_api.py:162-167). -/
def MIXIN_KEY_ENC_TAB : List Nat :=
  [46, 47, 18, 2, 53, 8, 23, 32, 15, 50, 10, 31, 58, 3, 45, 35, 27, 43, 5, 49,
   33, 9, 42, 19, 29, 28, 14, 39, 12, 38, 41, 13, 37, 48, 7, 16, 24, 55, 40,
   61, 26, 17, 0, 1, 60, 51, 30, 4, 22, 25, 54, 21, 56, 59, 6, 63, 57, 62, 11,
   36, 20, 34, 44, 52]

/-- Embeds `get_mixin_key` (blbl_up_watch.py:25-27, dp_bilibili_api.py:160-168):
`reduce(lambda s, i: s + orig[i], MIXIN_KEY_ENC_TAB, '')[:32]`.
Python raises `IndexError` when some table index is out of range of `orig`;
the embedding returns `none` in that case. -/
def get_mixin_key (orig : PyStr) : Option PyStr :=
  (MIXIN_KEY_ENC_TAB.foldl
    (fun acc i => acc.bind (fun s => (orig[i]?).map (fun c => s ++ [c])))
    (some [])).map (List.take 32)

/-- Key string `"wts"`. -/
def wts_key : PyStr := "wts".toList

/-- Key string `"w_rid"`. -/
def wrid_key : PyStr := "w_rid".toList

/-- Embeds `dp_bilibili.sign_params` (dp_bilibili_api.py:170-192); the
function body of `sign_params` in blbl_up_watch.py:170-189 is identical
except that it lacks the leading emptiness guard on the key fragments.
Returns the pair (final state of the caller's `params` dict, returned
value); the caller's dict is mutated in place by `params['wts'] = curr_time`
before the local name is rebound to the new sorted dict.  `none` as the
second component models the uncaught `IndexError` escaping from
`get_mixin_key` when the concatenated fragments are shorter than 64
characters. `md5_hex` abstracts `hashlib.md5(...).hexdigest()` and
`curr_time` abstracts `int(time.time())`. -/
def sign_params (params : PyDict) (img_key sub_key : PyStr)
    (md5_hex : PyStr → PyStr) (curr_time : Int) : PyDict × Option PyDict :=
  if img_key = [] ∨ sub_key = [] then (params, some [])
  else
    match get_mixin_key (img_key ++ sub_key) with
    | none => (params, none)
    | some mixin_key =>
      let params1 := dict_set params wts_key (.intV curr_time)
      let sorted := dict_sorted_by_key params1
      let filtered := sorted.map (fun kv => (kv.1, filter_special kv.2.str))
      let query := urlencode filtered
      let w_rid := md5_hex (query ++ mixin_key)
      (params1, some (dict_set sorted wrid_key (.strV w_rid)))

/-- Written from the spec's words (spec §4.1, steps 2-4): the URL-encoded
canonical query string of the parameters together with `wts`, sorted by key
byte-wise ascending, with the special characters removed from every value.
Used to compare `sign_params`'s `w_rid` input against the claimed formula. -/
def spec_canonical_query (params : PyDict) (curr_time : Int) : PyStr :=
  urlencode ((dict_sorted_by_key (params ++ [(wts_key, .intV curr_time)])).map
    (fun kv => (kv.1, filter_special kv.2.str)))

/-- Model of one attempt's outcome at a JSON endpoint: either a raised
exception (transport error, HTTP error status, or a parse failure inside
the `try` block), or a decoded body with its application-level `code` field
and the payload extracted on the success path. -/
inductive ApiResp (α : Type) where
  | exn : ApiResp α
  | resp : Int → α → ApiResp α
deriving DecidableEq

/-- Does this attempt count as a failure for the retry loops (an exception,
or an application `code != 0`)? -/
def ApiResp.fails {α : Type} : ApiResp α → Bool
  | .exn => true
  | .resp c _ => c != 0

/-- Embeds the retry loop shared by `dp_bilibili.get_ups_in_group`
(dp_bilibili_api.py:259-282), `dp_bilibili.get_video_info`
(dp_bilibili_api.py:296-320) and `get_followings_in_group`
(blbl_up_watch.py:244-266): `for attempt in range(retry_max)`, one HTTP call
per iteration; an exception or a `code != 0` response logs and continues,
`code == 0` returns the payload at once; exhaustion returns the empty
result.  The value is (result, number of calls made), with `none` standing
for the empty dict/list returned after exhaustion. -/
def retry_json_loop {α : Type} (responses : Nat → ApiResp α) : Nat → Nat → Option α × Nat
  | _, 0 => (none, 0)
  | attempt, fuel + 1 =>
    match responses attempt with
    | .resp code payload =>
      if code = 0 then (some payload, 1)
      else
        let rest := retry_json_loop responses (attempt + 1) fuel
        (rest.1, rest.2 + 1)
    | .exn =>
      let rest := retry_json_loop responses (attempt + 1) fuel
      (rest.1, rest.2 + 1)

/-- Embeds `dp_bilibili.get_ups_in_group` (dp_bilibili_api.py:245-282):
the creator-listing call, retried `retry_max` times. -/
def get_ups_in_group {α : Type} (responses : Nat → ApiResp α) (retry_max : Nat) :
    Option α × Nat :=
  retry_json_loop responses 0 retry_max

/-- Embeds `dp_bilibili.get_video_info` (dp_bilibili_api.py:284-320):
the video-detail call, retried `retry_max` times with the same loop. -/
def get_video_info {α : Type} (responses : Nat → ApiResp α) (retry_max : Nat) :
    Option α × Nat :=
  retry_json_loop responses 0 retry_max

/-- Embeds the retry loop of `get_wbi_keys` (dp_bilibili_api.py:137-158,
blbl_up_watch.py:111-141): the body never inspects the `code` field; an
attempt succeeds exactly when the `wbi_img` URLs parse out of the body
(oracle value `some keys`) and any exception (`none`) logs and continues. -/
def wbi_retry_loop {α : Type} (responses : Nat → Option α) : Nat → Nat → Option α × Nat
  | _, 0 => (none, 0)
  | attempt, fuel + 1 =>
    match responses attempt with
    | some keys => (some keys, 1)
    | none =>
      let rest := wbi_retry_loop responses (attempt + 1) fuel
      (rest.1, rest.2 + 1)

/-- Embeds `get_wbi_keys`: the key-fetch call, retried `retry_max` times. -/
def get_wbi_keys {α : Type} (responses : Nat → Option α) (retry_max : Nat) :
    Option α × Nat :=
  wbi_retry_loop responses 0 retry_max

/-- Embeds `dp_bilibili.get_following_groups` (dp_bilibili_api.py:119-135)
and `get_following_groups` (blbl_up_watch.py:208-224): a single call with no
retry loop; `code != 0` or an exception immediately yields the empty result.
The value is (result, number of calls made). -/
def get_following_groups {α : Type} (responses : Nat → ApiResp α) : Option α × Nat :=
  match responses 0 with
  | .resp code payload => if code = 0 then (some payload, 1) else (none, 1)
  | .exn => (none, 1)

/-- Embeds `dp_bilibili.get_up_videos` (dp_bilibili_api.py:194-243) and
`get_videos_in_up` (blbl_up_watch.py:268-321): the signed video-listing
call is a single attempt with no retry loop; `code != 0` returns the empty
list at once and an exception returns the empty dict. -/
def get_up_videos {α : Type} (responses : Nat → ApiResp α) : Option α × Nat :=
  match responses 0 with
  | .resp code payload => if code = 0 then (some payload, 1) else (none, 1)
  | .exn => (none, 1)

/-- Fixed sleep between QR login-status polls in
`dp_bilibili.login_by_qrcode`: `time.sleep(3)` (dp_bilibili_api.py:68). -/
def qrcode_poll_sleep_api : Nat := 3

/-- Default of the `retry_interval` constructor argument of `dp_bilibili`
(dp_bilibili_api.py:16). -/
def dp_bilibili_default_retry_interval : Nat := 5

/-- The general retry interval read from the configuration:
`config.get("retry_interval", 5)` (blbl_up_watch.py:89,121,242). -/
def config_retry_interval (cfg : Option Nat) : Nat := cfg.getD 5

/-- Sleep between QR login-status polls in `login_by_qrcode`
(blbl_up_watch.py:89): `time.sleep(config.get("retry_interval", 5))`. -/
def qrcode_poll_sleep_watch (cfg : Option Nat) : Nat := config_retry_interval cfg

/-- Embeds the logger branch of `dp_bilibili.__init__`
(dp_bilibili_api.py:22-30) acting on the instance attribute `self.logger`,
which is unset (`none`) on entry.  A truthy `logger` argument executes
`self.logger = self.logger`, whose right-hand side reads the still-unset
attribute; reading an unset attribute raises `AttributeError`, modelled by
returning `none`.  A falsy argument takes the `else` branch and installs the
default module logger. -/
def init_logger_attr {L : Type} (logger : Option L) (default_logger : L) : Option L :=
  let self_logger : Option L := none
  if logger.isSome then
    match self_logger with
    | some current => some current
    | none => none
  else
    some default_logger

/-- One row of the `videos` table (main.py:78-87, blbl_up_watch.py:328-337):
primary key `bvid`, payload columns, and the `timestamp` column filled by
SQLite's `DEFAULT CURRENT_TIMESTAMP` at insertion time. -/
structure VideoRow where
  bvid : PyStr
  up_name : PyStr
  up_mid : Int
  title : PyStr
  link : PyStr
  timestamp : Int
deriving DecidableEq

/-- The `video_info` dict passed to the insert (the five inserted columns). -/
structure VideoInfo where
  bvid : PyStr
  up_name : PyStr
  up_mid : Int
  title : PyStr
  link : PyStr
deriving DecidableEq

/-- Embeds `save_video_to_database_if_not_exists` (main.py:98-119) and
`save_video_if_not_exists` (blbl_up_watch.py:341-359) together with the
documented SQLite semantics of `INSERT` against a `PRIMARY KEY` column:
when a row with the same `bvid` exists the insert raises `IntegrityError`,
which the function catches and turns into `False` with the table unchanged;
otherwise the row is appended with `timestamp` defaulted to the insertion
time `now`, and the function returns `True`. -/
def save_video_to_database_if_not_exists (db : List VideoRow) (video_info : VideoInfo)
    (now : Int) : Bool × List VideoRow :=
  if db.any (fun row => row.bvid == video_info.bvid) then
    (false, db)
  else
    (true, db ++ [⟨video_info.bvid, video_info.up_name, video_info.up_mid,
      video_info.title, video_info.link, now⟩])

/-! ## Helper lemmas -/

/-- A permutation of a list does not change `List.any`. -/
theorem list_any_congr_perm {α : Type} (p : α → Bool) {l₁ l₂ : List α}
    (h : l₁.Perm l₂) : l₁.any p = l₂.any p := by
  induction h with
  | nil => rfl
  | cons a _ ih => simp [List.any_cons, ih]
  | swap a b l => simp only [List.any_cons]; rw [Bool.or_left_comm]
  | trans _ _ ih₁ ih₂ => exact ih₁.trans ih₂

/-- The membership test inside `dict_set` agrees with `dict_keys`. -/
theorem dict_any_key_iff {d : PyDict} {k : PyStr} :
    d.any (fun kv => kv.1 == k) = true ↔ k ∈ dict_keys d := by
  rw [List.any_eq_true]
  constructor
  · rintro ⟨kv, hkv, hb⟩
    exact List.mem_map.mpr ⟨kv, hkv, by simpa using hb⟩
  · intro hk
    rcases List.mem_map.mp hk with ⟨kv, hkv, rfl⟩
    exact ⟨kv, hkv, by simp⟩

/-- Negative form of `dict_any_key_iff`. -/
theorem dict_any_key_eq_false {d : PyDict} {k : PyStr} (h : k ∉ dict_keys d) :
    d.any (fun kv => kv.1 == k) = false := by
  rw [Bool.eq_false_iff]
  intro hany
  exact h (dict_any_key_iff.mp hany)

/-- Assigning a fresh key appends the entry. -/
theorem dict_set_of_not_mem {d : PyDict} {k : PyStr} (v : PyVal)
    (h : k ∉ dict_keys d) : dict_set d k v = d ++ [(k, v)] := by
  simp [dict_set, dict_any_key_eq_false h]

/-- Replacing the value at a key leaves the key list unchanged. -/
theorem dict_keys_map_replace (d : PyDict) (k : PyStr) (v : PyVal) :
    dict_keys (d.map (fun kv => if kv.1 == k then (k, v) else kv)) = dict_keys d := by
  simp only [dict_keys, List.map_map]
  apply List.map_congr_left
  intro kv _
  by_cases h : kv.1 = k
  · simp [Function.comp, h]
  · simp [Function.comp, h]

/-- `dict_set` respects permutation of the underlying entry list. -/
theorem dict_set_perm {d₁ d₂ : PyDict} (k : PyStr) (v : PyVal) (h : d₁.Perm d₂) :
    (dict_set d₁ k v).Perm (dict_set d₂ k v) := by
  unfold dict_set
  rw [list_any_congr_perm _ h]
  by_cases hany : d₂.any (fun kv => kv.1 == k) = true
  · rw [if_pos hany, if_pos hany]
    exact h.map _
  · rw [if_neg hany, if_neg hany]
    exact h.append_right _

/-- `dict_set` preserves distinctness of the keys. -/
theorem dict_set_keys_nodup {d : PyDict} (k : PyStr) (v : PyVal)
    (h : (dict_keys d).Nodup) : (dict_keys (dict_set d k v)).Nodup := by
  unfold dict_set
  by_cases hany : d.any (fun kv => kv.1 == k) = true
  · rw [if_pos hany, dict_keys_map_replace]
    exact h
  · rw [if_neg hany]
    have hk : k ∉ dict_keys d := fun hmem => hany (dict_any_key_iff.mpr hmem)
    simp only [dict_keys, List.map_append, List.map_cons, List.map_nil]
    rw [List.nodup_append]
    refine ⟨h, List.nodup_singleton k, fun a ha hb => ?_⟩
    rw [List.mem_singleton] at hb
    exact hk (hb ▸ ha)

/-- A by-key-sorted dict with distinct keys is strictly sorted. -/
theorem sorted_key_lt_of_nodup {l : PyDict} (hs : List.Sorted key_le l)
    (hnd : (dict_keys l).Nodup) : List.Sorted key_lt l := by
  have hne : l.Pairwise (fun p q : PyStr × PyVal => p.1 ≠ q.1) := by
    have := List.pairwise_map.mp hnd
    exact this
  exact (List.Pairwise.and hs hne).imp (fun h => lt_of_le_of_ne h.1 h.2)

/-- Sorting by key is insensitive to the insertion order of a dict with
distinct keys. -/
theorem dict_sorted_by_key_eq_of_perm {d₁ d₂ : PyDict} (h : d₁.Perm d₂)
    (hnd : (dict_keys d₁).Nodup) :
    dict_sorted_by_key d₁ = dict_sorted_by_key d₂ := by
  have hperm : (dict_sorted_by_key d₁).Perm (dict_sorted_by_key d₂) :=
    ((List.perm_insertionSort key_le d₁).trans h).trans
      (List.perm_insertionSort key_le d₂).symm
  have hnd₂ : (dict_keys d₂).Nodup := ((h.map Prod.fst).nodup_iff).mp hnd
  have hnd₁s : (dict_keys (dict_sorted_by_key d₁)).Nodup :=
    (((List.perm_insertionSort key_le d₁).map Prod.fst).nodup_iff).mpr hnd
  have hnd₂s : (dict_keys (dict_sorted_by_key d₂)).Nodup :=
    (((List.perm_insertionSort key_le d₂).map Prod.fst).nodup_iff).mpr hnd₂
  exact List.eq_of_perm_of_sorted hperm
    (sorted_key_lt_of_nodup (List.sorted_insertionSort key_le d₁) hnd₁s)
    (sorted_key_lt_of_nodup (List.sorted_insertionSort key_le d₂) hnd₂s)

/-- Unfolding of the `get_mixin_key` fold when every table index is in
range of `orig`. -/
theorem mixin_foldl_eq (orig : PyStr) (tab : List Nat) :
    ∀ (acc : PyStr), (∀ i ∈ tab, i < orig.length) →
      tab.foldl (fun acc i => acc.bind (fun s => (orig[i]?).map (fun c => s ++ [c])))
          (some acc)
        = some (acc ++ tab.map (fun i => orig.getD i ' ')) := by
  induction tab with
  | nil => intro acc _; simp
  | cons i t ih =>
    intro acc h
    have hi : i < orig.length := h i (List.mem_cons_self i t)
    have ht : ∀ j ∈ t, j < orig.length := fun j hj => h j (List.mem_cons_of_mem i hj)
    rw [List.foldl_cons]
    have hstep : (some acc).bind (fun s => (orig[i]?).map fun c => s ++ [c])
        = some (acc ++ [orig.getD i ' ']) := by
      simp [List.getElem?_eq_getElem hi, List.getD_eq_getElem?_getD]
    rw [hstep, ih _ ht]
    simp

/-- Every entry of the mixing table is below 64. -/
theorem mixin_tab_lt_64 : ∀ i ∈ MIXIN_KEY_ENC_TAB, i < 64 := by
  intro i hi
  have hall : MIXIN_KEY_ENC_TAB.all (fun j => j < 64) = true := by decide
  simpa using List.all_eq_true.mp hall i hi

/-- Closed form of `get_mixin_key` on inputs of length at least 64. -/
theorem get_mixin_key_eq {orig : PyStr} (h : 64 ≤ orig.length) :
    get_mixin_key orig =
      some ((MIXIN_KEY_ENC_TAB.map (fun i => orig.getD i ' ')).take 32) := by
  have htab : ∀ i ∈ MIXIN_KEY_ENC_TAB, i < orig.length :=
    fun i hi => lt_of_lt_of_le (mixin_tab_lt_64 i hi) h
  unfold get_mixin_key
  rw [mixin_foldl_eq orig MIXIN_KEY_ENC_TAB [] htab]
  simp

/-- Closed form of `sign_params` on the success path: non-empty fragments
whose concatenation is at least 64 characters long. -/
theorem sign_params_success (params : PyDict) (img_key sub_key : PyStr)
    (md5_hex : PyStr → PyStr) (curr_time : Int)
    (himg : img_key ≠ []) (hsub : sub_key ≠ [])
    (hlen : 64 ≤ (img_key ++ sub_key).length) :
    sign_params params img_key sub_key md5_hex curr_time =
      (dict_set params wts_key (.intV curr_time),
       some (dict_set (dict_sorted_by_key (dict_set params wts_key (.intV curr_time)))
         wrid_key (.strV (md5_hex
           (urlencode ((dict_sorted_by_key (dict_set params wts_key (.intV curr_time))).map
             (fun kv => (kv.1, filter_special kv.2.str))) ++
            ((MIXIN_KEY_ENC_TAB.map (fun i => (img_key ++ sub_key).getD i ' ')).take 32)))))) := by
  unfold sign_params
  rw [if_neg (by simp [himg, hsub]), get_mixin_key_eq hlen]

/-- The retry loop never makes more calls than its remaining attempt budget. -/
theorem retry_json_loop_calls_le {α : Type} (responses : Nat → ApiResp α) :
    ∀ (fuel attempt : Nat), (retry_json_loop responses attempt fuel).2 ≤ fuel := by
  intro fuel
  induction fuel with
  | zero => intro attempt; simp [retry_json_loop]
  | succ n ih =>
    intro attempt
    unfold retry_json_loop
    cases responses attempt with
    | exn => exact Nat.succ_le_succ (ih (attempt + 1))
    | resp c p =>
      by_cases hc : c = 0
      · simp [hc]
      · simp only [if_neg hc]
        exact Nat.succ_le_succ (ih (attempt + 1))

/-- With at least one attempt left, the retry loop makes at least one call. -/
theorem retry_json_loop_calls_pos {α : Type} (responses : Nat → ApiResp α)
    (attempt : Nat) {fuel : Nat} (h : 1 ≤ fuel) :
    1 ≤ (retry_json_loop responses attempt fuel).2 := by
  cases fuel with
  | zero => omega
  | succ n =>
    unfold retry_json_loop
    cases responses attempt with
    | exn => simp
    | resp c p =>
      by_cases hc : c = 0
      · simp [hc]
      · simp [hc]

/-- The key-fetch retry loop never makes more calls than its budget. -/
theorem wbi_retry_loop_calls_le {α : Type} (responses : Nat → Option α) :
    ∀ (fuel attempt : Nat), (wbi_retry_loop responses attempt fuel).2 ≤ fuel := by
  intro fuel
  induction fuel with
  | zero => intro attempt; simp [wbi_retry_loop]
  | succ n ih =>
    intro attempt
    unfold wbi_retry_loop
    cases responses attempt with
    | none => exact Nat.succ_le_succ (ih (attempt + 1))
    | some p => simp

/-- With at least one attempt left, the key-fetch loop makes at least one call. -/
theorem wbi_retry_loop_calls_pos {α : Type} (responses : Nat → Option α)
    (attempt : Nat) {fuel : Nat} (h : 1 ≤ fuel) :
    1 ≤ (wbi_retry_loop responses attempt fuel).2 := by
  cases fuel with
  | zero => omega
  | succ n =>
    unfold wbi_retry_loop
    cases responses attempt with
    | none => simp
    | some p => simp

/-! ## Claim theorems -/

/-- C2: for every input string of length at least 64, the mixing-key
derivation succeeds and returns a string of exactly 32 characters whose
i-th character (i < 32) is the input character at index
`MIXIN_KEY_ENC_TAB[i]`. -/
theorem get_mixin_key_selects_fixed_permutation (orig : PyStr) (h : 64 ≤ orig.length) :
    ∃ mk, get_mixin_key orig = some mk ∧ mk.length = 32 ∧
      ∀ i, i < 32 → mk[i]? = orig[MIXIN_KEY_ENC_TAB.getD i 0]? := by
  refine ⟨_, get_mixin_key_eq h, ?_, ?_⟩
  · rw [List.length_take, List.length_map]
    have htab : MIXIN_KEY_ENC_TAB.length = 64 := by decide
    rw [htab]
    omega
  · intro i hi
    have htab : MIXIN_KEY_ENC_TAB.length = 64 := by decide
    have hi64 : i < MIXIN_KEY_ENC_TAB.length := by omega
    rw [List.getElem?_take, if_pos hi, List.getElem?_map, List.getElem?_eq_getElem hi64]
    have hmem : MIXIN_KEY_ENC_TAB[i] ∈ MIXIN_KEY_ENC_TAB := List.getElem_mem hi64
    have hjlt : MIXIN_KEY_ENC_TAB[i] < orig.length :=
      lt_of_lt_of_le (mixin_tab_lt_64 _ hmem) h
    have hgd : MIXIN_KEY_ENC_TAB.getD i 0 = MIXIN_KEY_ENC_TAB[i] := by
      rw [List.getD_eq_getElem?_getD, List.getElem?_eq_getElem hi64]
      rfl
    rw [hgd, List.getElem?_eq_getElem hjlt]
    simp [List.getD_eq_getElem?_getD, List.getElem?_eq_getElem hjlt]

/-- Witness for `get_mixin_key_selects_fixed_permutation` at a concrete
64-character input. -/
theorem get_mixin_key_selects_fixed_permutation_witness :
    64 ≤ ("0123456789abcdefghijklmnopqrstuvwxyzABCDEFGHIJKLMNOPQRSTUVWXYZ01".toList : PyStr).length ∧
    (∃ mk, get_mixin_key "0123456789abcdefghijklmnopqrstuvwxyzABCDEFGHIJKLMNOPQRSTUVWXYZ01".toList = some mk ∧
      mk.length = 32 ∧
      ∀ i, i < 32 →
        mk[i]? = ("0123456789abcdefghijklmnopqrstuvwxyzABCDEFGHIJKLMNOPQRSTUVWXYZ01".toList : PyStr)[MIXIN_KEY_ENC_TAB.getD i 0]?) :=
  ⟨by decide, get_mixin_key_selects_fixed_permutation _ (by decide)⟩

/-- C5: inserting the same video id twice returns `true` then `false`, and
the second call leaves the whole table — including the `timestamp` column
written by the first insert — exactly as the first call left it. -/
theorem save_video_insert_twice (db : List VideoRow) (v₁ v₂ : VideoInfo) (t₁ t₂ : Int)
    (habs : ∀ row ∈ db, row.bvid ≠ v₁.bvid) (hsame : v₂.bvid = v₁.bvid) :
    (save_video_to_database_if_not_exists db v₁ t₁).1 = true ∧
    save_video_to_database_if_not_exists
        (save_video_to_database_if_not_exists db v₁ t₁).2 v₂ t₂ =
      (false, (save_video_to_database_if_not_exists db v₁ t₁).2) := by
  have hany : db.any (fun row => row.bvid == v₁.bvid) = false := by
    rw [Bool.eq_false_iff]
    intro hx
    rcases List.any_eq_true.mp hx with ⟨row, hrow, hb⟩
    exact habs row hrow (by simpa using hb)
  constructor
  · simp [save_video_to_database_if_not_exists, hany]
  · simp [save_video_to_database_if_not_exists, hany, List.any_append, hsame]

/-- Witness for `save_video_insert_twice`: one record inserted twice into an
empty table, with different insertion times for the two calls. -/
theorem save_video_insert_twice_witness :
    (∀ row ∈ ([] : List VideoRow),
      row.bvid ≠ (⟨"BV1x".toList, "Alice".toList, 7, "Q3".toList, "u".toList⟩ : VideoInfo).bvid) ∧
    (⟨"BV1x".toList, "Alice".toList, 7, "Q3".toList, "u".toList⟩ : VideoInfo).bvid =
      (⟨"BV1x".toList, "Alice".toList, 7, "Q3".toList, "u".toList⟩ : VideoInfo).bvid ∧
    ((save_video_to_database_if_not_exists []
        ⟨"BV1x".toList, "Alice".toList, 7, "Q3".toList, "u".toList⟩ 10).1 = true ∧
     save_video_to_database_if_not_exists
        (save_video_to_database_if_not_exists []
          ⟨"BV1x".toList, "Alice".toList, 7, "Q3".toList, "u".toList⟩ 10).2
        ⟨"BV1x".toList, "Alice".toList, 7, "Q3".toList, "u".toList⟩ 20 =
      (false, (save_video_to_database_if_not_exists []
        ⟨"BV1x".toList, "Alice".toList, 7, "Q3".toList, "u".toList⟩ 10).2)) :=
  ⟨by decide, rfl, save_video_insert_twice [] _ _ 10 20 (by decide) rfl⟩

/-- C7: when a key fragment is empty (no valid key fragments are available)
the signer refuses to sign: it returns the empty mapping, raises nothing,
and leaves the caller's dict untouched. -/
theorem sign_params_refuses_empty_fragments (params : PyDict) (img_key sub_key : PyStr)
    (md5_hex : PyStr → PyStr) (curr_time : Int) (h : img_key = [] ∨ sub_key = []) :
    sign_params params img_key sub_key md5_hex curr_time = (params, some []) := by
  unfold sign_params
  rw [if_pos h]

/-- Witness for `sign_params_refuses_empty_fragments` with an empty
`img_key`. -/
theorem sign_params_refuses_empty_fragments_witness :
    (([] : PyStr) = [] ∨ ("x".toList : PyStr) = []) ∧
    sign_params [("mid".toList, PyVal.intV 5)] [] "x".toList (fun s => s) 42 =
      ([("mid".toList, PyVal.intV 5)], some []) :=
  ⟨Or.inl rfl, sign_params_refuses_empty_fragments _ _ _ _ _ (Or.inl rfl)⟩

/-- C9 counterexample: in `blbl_up_watch.py` the QR poll wait equals the
configured general retry interval, so with the default configuration it is
not strictly shorter; and the fixed 3-second wait of `dp_bilibili_api.py`
is not strictly shorter when `retry_interval` is configured to 3. -/
theorem qrcode_poll_not_shorter :
    qrcode_poll_sleep_watch none = config_retry_interval none ∧
    ¬ qrcode_poll_sleep_watch none < config_retry_interval none ∧
    ¬ qrcode_poll_sleep_api < config_retry_interval (some 3) := by
  decide

/-- C9 (amended): the QR poll wait in `dp_bilibili_api.py` is the fixed
constant 3, strictly shorter than the 5-second default retry interval; in
`blbl_up_watch.py` the poll wait equals the configured general retry
interval (default 5 s) in every configuration. -/
theorem qrcode_poll_interval_values :
    qrcode_poll_sleep_api = 3 ∧
    qrcode_poll_sleep_api < dp_bilibili_default_retry_interval ∧
    ∀ cfg, qrcode_poll_sleep_watch cfg = config_retry_interval cfg :=
  ⟨rfl, by decide, fun _ => rfl⟩

/-- C10: constructing `dp_bilibili` with any non-None logger executes
`self.logger = self.logger`, which reads the not-yet-assigned attribute and
raises `AttributeError`; construction of the logger attribute succeeds
exactly when the argument is omitted or None, in which case the default
module logger is installed. -/
theorem dp_bilibili_init_logger_attribute_error {L : Type} (l : L) (default_logger : L) :
    init_logger_attr (some l) default_logger = none ∧
    init_logger_attr (none : Option L) default_logger = some default_logger :=
  ⟨rfl, rfl⟩

/-- One failing iteration of the shared retry loop: a call whose response is
an exception or carries `code != 0` adds one call and continues with the
next attempt. -/
theorem retry_json_loop_step_fail {α : Type} (responses : Nat → ApiResp α)
    (a b fuel : Nat) (hab : a + 1 = b) (h : (responses a).fails = true) :
    retry_json_loop responses a (fuel + 1) =
      ((retry_json_loop responses b fuel).1, (retry_json_loop responses b fuel).2 + 1) := by
  subst hab
  conv_lhs => rw [retry_json_loop]
  cases hr : responses a with
  | exn => rfl
  | resp c x =>
    rw [hr] at h
    have hc : c ≠ 0 := by simpa [ApiResp.fails] using h
    dsimp only
    rw [if_neg hc]

/-- One successful iteration of the shared retry loop: a `code == 0`
response returns its payload after exactly one call. -/
theorem retry_json_loop_step_ok {α : Type} (responses : Nat → ApiResp α)
    (a fuel : Nat) {p : α} (h : responses a = ApiResp.resp 0 p) :
    retry_json_loop responses a (fuel + 1) = (some p, 1) := by
  conv_lhs => rw [retry_json_loop]
  rw [h]
  simp

/-- One failing iteration of the key-fetch retry loop. -/
theorem wbi_retry_loop_step_fail {α : Type} (responses : Nat → Option α)
    (a b fuel : Nat) (hab : a + 1 = b) (h : responses a = none) :
    wbi_retry_loop responses a (fuel + 1) =
      ((wbi_retry_loop responses b fuel).1, (wbi_retry_loop responses b fuel).2 + 1) := by
  subst hab
  conv_lhs => rw [wbi_retry_loop]
  rw [h]

/-- One successful iteration of the key-fetch retry loop. -/
theorem wbi_retry_loop_step_ok {α : Type} (responses : Nat → Option α)
    (a fuel : Nat) {p : α} (h : responses a = some p) :
    wbi_retry_loop responses a (fuel + 1) = (some p, 1) := by
  conv_lhs => rw [wbi_retry_loop]
  rw [h]

/-- After a first response with `code != 0`, the shared retry loop performs
at least a second call when the budget allows one. -/
theorem retry_json_loop_retries_on_error {α : Type} (responses : Nat → ApiResp α)
    {c : Int} {payload : α} (hresp : responses 0 = ApiResp.resp c payload) (hc : c ≠ 0)
    {fuel : Nat} (h : 2 ≤ fuel) : 2 ≤ (retry_json_loop responses 0 fuel).2 := by
  obtain ⟨n, rfl⟩ : ∃ n, fuel = n + 1 := ⟨fuel - 1, by omega⟩
  have hfail : (responses 0).fails = true := by simp [hresp, ApiResp.fails, hc]
  rw [retry_json_loop_step_fail responses 0 1 n rfl hfail]
  have hpos := @retry_json_loop_calls_pos α responses 1 n (by omega)
  show 2 ≤ (retry_json_loop responses 1 n).2 + 1
  omega

/-- After a first exception, the key-fetch retry loop performs at least a
second call when the budget allows one. -/
theorem wbi_retry_loop_retries_on_exn {α : Type} (responses : Nat → Option α)
    (hresp : responses 0 = none) {fuel : Nat} (h : 2 ≤ fuel) :
    2 ≤ (wbi_retry_loop responses 0 fuel).2 := by
  obtain ⟨n, rfl⟩ : ∃ n, fuel = n + 1 := ⟨fuel - 1, by omega⟩
  rw [wbi_retry_loop_step_fail responses 0 1 n rfl hresp]
  have hpos := @wbi_retry_loop_calls_pos α responses 1 n (by omega)
  show 2 ≤ (wbi_retry_loop responses 1 n).2 + 1
  omega

/-- C3 (amended): a `code != 0` response is treated as a transient fault —
retried within the attempt budget — by the creator-listing call
(`get_ups_in_group`) and the video-detail call (`get_video_info`); the
key-fetch call (`get_wbi_keys`) retries on any exception, including the
parse failure a `code != 0` body causes, without an explicit code check;
but the group-listing call (`get_following_groups`) and the video-listing
call (`get_up_videos`) make exactly one call and return the empty result on
the first `code != 0` response. -/
theorem code_error_retry_behavior {α : Type} (responses : Nat → ApiResp α)
    (wbi_responses : Nat → Option α) (retry_max : Nat) (c : Int) (payload : α)
    (hresp : responses 0 = ApiResp.resp c payload) (hc : c ≠ 0) (hmax : 2 ≤ retry_max)
    (hwbi : wbi_responses 0 = none) :
    2 ≤ (get_ups_in_group responses retry_max).2 ∧
    2 ≤ (get_video_info responses retry_max).2 ∧
    2 ≤ (get_wbi_keys wbi_responses retry_max).2 ∧
    get_following_groups responses = (none, 1) ∧
    get_up_videos responses = (none, 1) := by
  have h1 : 2 ≤ (retry_json_loop responses 0 retry_max).2 :=
    retry_json_loop_retries_on_error responses hresp hc hmax
  have h2 : 2 ≤ (wbi_retry_loop wbi_responses 0 retry_max).2 :=
    wbi_retry_loop_retries_on_exn wbi_responses hwbi hmax
  refine ⟨h1, h1, h2, ?_, ?_⟩
  · unfold get_following_groups
    rw [hresp]
    simp [hc]
  · unfold get_up_videos
    rw [hresp]
    simp [hc]

/-- Witness for `code_error_retry_behavior` at a concrete oracle that
always answers with application code 1, and the default `retry_max = 10`. -/
theorem code_error_retry_behavior_witness :
    ((fun _ : Nat => ApiResp.resp 1 (0 : Nat)) 0 = ApiResp.resp 1 0) ∧
    ((1 : Int) ≠ 0) ∧ (2 ≤ 10) ∧ ((fun _ : Nat => (none : Option Nat)) 0 = none) ∧
    (2 ≤ (get_ups_in_group (fun _ : Nat => ApiResp.resp 1 (0 : Nat)) 10).2 ∧
     2 ≤ (get_video_info (fun _ : Nat => ApiResp.resp 1 (0 : Nat)) 10).2 ∧
     2 ≤ (get_wbi_keys (fun _ : Nat => (none : Option Nat)) 10).2 ∧
     get_following_groups (fun _ : Nat => ApiResp.resp 1 (0 : Nat)) = (none, 1) ∧
     get_up_videos (fun _ : Nat => ApiResp.resp 1 (0 : Nat)) = (none, 1)) :=
  ⟨rfl, by decide, by decide, rfl,
   code_error_retry_behavior _ _ 10 1 0 rfl (by decide) (by decide) rfl⟩

/-- C3 counterexample: the video-listing and group-listing calls are not
retried on `code != 0`: with an oracle whose first nine responses carry
code -352 and whose tenth succeeds — a success within the default retry
budget of 10 — both return the empty result after exactly one call, while
the creator-listing call under the same oracle does retry through to the
success. -/
theorem listing_calls_single_attempt_on_error :
    get_up_videos (fun i => if i < 9 then ApiResp.resp (-352) (0 : Nat) else ApiResp.resp 0 42) =
      (none, 1) ∧
    get_following_groups
        (fun i => if i < 9 then ApiResp.resp (-352) (0 : Nat) else ApiResp.resp 0 42) =
      (none, 1) ∧
    get_ups_in_group (fun i => if i < 9 then ApiResp.resp (-352) (0 : Nat) else ApiResp.resp 0 42)
        10 =
      (some 42, 10) := by
  refine ⟨rfl, rfl, ?_⟩
  decide

/-- C4: under the retrying executor with `retry_max = 3`, an operation that
fails on the first two attempts and succeeds on the third is invoked
exactly 3 times and the overall result is the third attempt's success
value; and in general no more than `retry_max` invocations are ever made.
Proved for both loop shapes in the source: the `code`-checking loop of
`get_ups_in_group` and the exception-only loop of `get_wbi_keys`. -/
theorem retry_executor_exact_calls {α : Type} (responses : Nat → ApiResp α)
    (wbi_responses : Nat → Option α) (p q : α)
    (h₀ : (responses 0).fails = true) (h₁ : (responses 1).fails = true)
    (h₂ : responses 2 = ApiResp.resp 0 p)
    (hw₀ : wbi_responses 0 = none) (hw₁ : wbi_responses 1 = none)
    (hw₂ : wbi_responses 2 = some q) :
    get_ups_in_group responses 3 = (some p, 3) ∧
    get_wbi_keys wbi_responses 3 = (some q, 3) ∧
    (∀ n, (get_ups_in_group responses n).2 ≤ n) ∧
    (∀ n, (get_wbi_keys wbi_responses n).2 ≤ n) := by
  refine ⟨?_, ?_, fun n => retry_json_loop_calls_le responses n 0,
    fun n => wbi_retry_loop_calls_le wbi_responses n 0⟩
  · have e0 : retry_json_loop responses 0 3 =
        ((retry_json_loop responses 1 2).1, (retry_json_loop responses 1 2).2 + 1) :=
      retry_json_loop_step_fail responses 0 1 2 rfl h₀
    have e1 : retry_json_loop responses 1 2 =
        ((retry_json_loop responses 2 1).1, (retry_json_loop responses 2 1).2 + 1) :=
      retry_json_loop_step_fail responses 1 2 1 rfl h₁
    have e2 : retry_json_loop responses 2 1 = (some p, 1) :=
      retry_json_loop_step_ok responses 2 0 h₂
    show retry_json_loop responses 0 3 = (some p, 3)
    rw [e0, e1, e2]
  · have e0 : wbi_retry_loop wbi_responses 0 3 =
        ((wbi_retry_loop wbi_responses 1 2).1, (wbi_retry_loop wbi_responses 1 2).2 + 1) :=
      wbi_retry_loop_step_fail wbi_responses 0 1 2 rfl hw₀
    have e1 : wbi_retry_loop wbi_responses 1 2 =
        ((wbi_retry_loop wbi_responses 2 1).1, (wbi_retry_loop wbi_responses 2 1).2 + 1) :=
      wbi_retry_loop_step_fail wbi_responses 1 2 1 rfl hw₁
    have e2 : wbi_retry_loop wbi_responses 2 1 = (some q, 1) :=
      wbi_retry_loop_step_ok wbi_responses 2 0 hw₂
    show wbi_retry_loop wbi_responses 0 3 = (some q, 3)
    rw [e0, e1, e2]

/-- Witness for `retry_executor_exact_calls`: oracles failing on attempts 0
and 1 and succeeding on attempt 2. -/
theorem retry_executor_exact_calls_witness :
    (((fun i : Nat => if i < 2 then ApiResp.exn else ApiResp.resp 0 (7 : Nat)) 0).fails = true) ∧
    (((fun i : Nat => if i < 2 then ApiResp.exn else ApiResp.resp 0 (7 : Nat)) 1).fails = true) ∧
    ((fun i : Nat => if i < 2 then ApiResp.exn else ApiResp.resp 0 (7 : Nat)) 2 = ApiResp.resp 0 7) ∧
    ((fun i : Nat => if i < 2 then (none : Option Nat) else some 9) 0 = none) ∧
    ((fun i : Nat => if i < 2 then (none : Option Nat) else some 9) 1 = none) ∧
    ((fun i : Nat => if i < 2 then (none : Option Nat) else some 9) 2 = some 9) ∧
    (get_ups_in_group (fun i : Nat => if i < 2 then ApiResp.exn else ApiResp.resp 0 (7 : Nat)) 3 =
        (some 7, 3) ∧
     get_wbi_keys (fun i : Nat => if i < 2 then (none : Option Nat) else some 9) 3 = (some 9, 3) ∧
     (∀ n, (get_ups_in_group
        (fun i : Nat => if i < 2 then ApiResp.exn else ApiResp.resp 0 (7 : Nat)) n).2 ≤ n) ∧
     (∀ n, (get_wbi_keys (fun i : Nat => if i < 2 then (none : Option Nat) else some 9) n).2 ≤ n)) :=
  ⟨rfl, rfl, rfl, rfl, rfl, rfl,
   retry_executor_exact_calls _ _ 7 9 rfl rfl rfl rfl rfl rfl⟩

/-- Sorting a dict by key permutes its entries. -/
theorem dict_sorted_by_key_perm (d : PyDict) : (dict_sorted_by_key d).Perm d :=
  List.perm_insertionSort key_le d

/-- C1 (amended): for parameter mappings with distinct keys not already
containing `wts` or `w_rid`, and key fragments whose concatenation is at
least 64 characters long, `sign_params` returns a mapping containing a
`wts` entry equal to the injected timestamp and a `w_rid` entry equal to
the MD5 hex digest of the canonical query string (parameters plus `wts`,
sorted by key, special characters stripped from values, URL-encoded)
concatenated with the mixing key. -/
theorem sign_params_wts_wrid_formula (params : PyDict) (img_key sub_key : PyStr)
    (md5_hex : PyStr → PyStr) (curr_time : Int)
    (himg : img_key ≠ []) (hsub : sub_key ≠ [])
    (hlen : 64 ≤ (img_key ++ sub_key).length)
    (hwts : wts_key ∉ dict_keys params) (hwrid : wrid_key ∉ dict_keys params) :
    ∃ mk result,
      get_mixin_key (img_key ++ sub_key) = some mk ∧
      (sign_params params img_key sub_key md5_hex curr_time).2 = some result ∧
      (wts_key, PyVal.intV curr_time) ∈ result ∧
      (wrid_key, PyVal.strV (md5_hex (spec_canonical_query params curr_time ++ mk))) ∈ result := by
  have hset : dict_set params wts_key (.intV curr_time) =
      params ++ [(wts_key, .intV curr_time)] := dict_set_of_not_mem _ hwts
  have hq : spec_canonical_query params curr_time =
      urlencode ((dict_sorted_by_key (dict_set params wts_key (.intV curr_time))).map
        (fun kv => (kv.1, filter_special kv.2.str))) := by
    rw [spec_canonical_query, hset]
  have hwts_mem : (wts_key, PyVal.intV curr_time) ∈
      dict_sorted_by_key (dict_set params wts_key (.intV curr_time)) := by
    apply (dict_sorted_by_key_perm _).mem_iff.mpr
    rw [hset]
    exact List.mem_append.mpr (Or.inr (List.mem_singleton_self _))
  have hwrid_not : wrid_key ∉
      dict_keys (dict_sorted_by_key (dict_set params wts_key (.intV curr_time))) := by
    intro hmem
    have hmem2 : wrid_key ∈ dict_keys (dict_set params wts_key (.intV curr_time)) :=
      (((dict_sorted_by_key_perm _).map Prod.fst).mem_iff).mp hmem
    rw [hset, dict_keys, List.map_append] at hmem2
    rcases List.mem_append.mp hmem2 with hmem2 | hmem2
    · exact hwrid hmem2
    · simp only [List.map_cons, List.map_nil, List.mem_singleton] at hmem2
      exact absurd hmem2 (by decide)
  have hres : ∀ v, dict_set (dict_sorted_by_key (dict_set params wts_key (.intV curr_time)))
        wrid_key v =
      dict_sorted_by_key (dict_set params wts_key (.intV curr_time)) ++ [(wrid_key, v)] :=
    fun v => dict_set_of_not_mem v hwrid_not
  refine ⟨(MIXIN_KEY_ENC_TAB.map (fun i => (img_key ++ sub_key).getD i ' ')).take 32,
    dict_set (dict_sorted_by_key (dict_set params wts_key (.intV curr_time))) wrid_key
      (.strV (md5_hex
        (urlencode ((dict_sorted_by_key (dict_set params wts_key (.intV curr_time))).map
          (fun kv => (kv.1, filter_special kv.2.str))) ++
         (MIXIN_KEY_ENC_TAB.map (fun i => (img_key ++ sub_key).getD i ' ')).take 32))),
    get_mixin_key_eq hlen, ?_, ?_, ?_⟩
  · rw [sign_params_success params img_key sub_key md5_hex curr_time himg hsub hlen]
  · rw [hres]
    exact List.mem_append.mpr (Or.inl hwts_mem)
  · rw [hq, hres]
    exact List.mem_append.mpr (Or.inr (List.mem_singleton_self _))

/-- Witness for `sign_params_wts_wrid_formula` at a concrete parameter dict,
concrete 32+32-character key fragments, timestamp 100 and the identity
function in place of the MD5 digest. -/
theorem sign_params_wts_wrid_formula_witness :
    (("aaaaaaaaaaaaaaaaaaaaaaaaaaaaaaaa".toList : PyStr) ≠ []) ∧
    (("bbbbbbbbbbbbbbbbbbbbbbbbbbbbbbbb".toList : PyStr) ≠ []) ∧
    64 ≤ (("aaaaaaaaaaaaaaaaaaaaaaaaaaaaaaaa".toList : PyStr) ++
      "bbbbbbbbbbbbbbbbbbbbbbbbbbbbbbbb".toList).length ∧
    wts_key ∉ dict_keys [("mid".toList, PyVal.intV 5)] ∧
    wrid_key ∉ dict_keys [("mid".toList, PyVal.intV 5)] ∧
    (∃ mk result,
      get_mixin_key ("aaaaaaaaaaaaaaaaaaaaaaaaaaaaaaaa".toList ++
        "bbbbbbbbbbbbbbbbbbbbbbbbbbbbbbbb".toList) = some mk ∧
      (sign_params [("mid".toList, PyVal.intV 5)] "aaaaaaaaaaaaaaaaaaaaaaaaaaaaaaaa".toList
        "bbbbbbbbbbbbbbbbbbbbbbbbbbbbbbbb".toList (fun s => s) 100).2 = some result ∧
      (wts_key, PyVal.intV 100) ∈ result ∧
      (wrid_key, PyVal.strV ((fun s => s)
        (spec_canonical_query [("mid".toList, PyVal.intV 5)] 100 ++ mk))) ∈ result) :=
  ⟨by decide, by decide, by decide, by decide, by decide,
   sign_params_wts_wrid_formula _ _ _ _ _ (by decide) (by decide) (by decide)
     (by decide) (by decide)⟩

/-- C1 counterexample: with non-empty key fragments `"a"` and `"b"` — whose
concatenation is shorter than 64 characters — `sign_params` does not return
a signed mapping at all: the table lookup in `get_mixin_key` raises
`IndexError` (modelled by `none`). -/
theorem sign_params_short_fragments_crash :
    (("a".toList : PyStr) ≠ []) ∧ (("b".toList : PyStr) ≠ []) ∧
    (sign_params [("mid".toList, PyVal.intV 5)] "a".toList "b".toList (fun s => s) 1000).2 =
      none := by
  decide

/-- C6: the signature is deterministic and independent of the insertion
order of the input mapping: two input dicts holding the same key-value
pairs (a permutation, with distinct keys) produce identical results — in
particular identical `w_rid` values — for the same fragments, digest
function and injected timestamp. -/
theorem sign_params_insertion_order_independent
    (d₁ d₂ : PyDict) (img_key sub_key : PyStr) (md5_hex : PyStr → PyStr) (curr_time : Int)
    (hperm : d₁.Perm d₂) (hnd : (dict_keys d₁).Nodup) :
    (sign_params d₁ img_key sub_key md5_hex curr_time).2 =
      (sign_params d₂ img_key sub_key md5_hex curr_time).2 := by
  have hsort : dict_sorted_by_key (dict_set d₁ wts_key (.intV curr_time)) =
      dict_sorted_by_key (dict_set d₂ wts_key (.intV curr_time)) :=
    dict_sorted_by_key_eq_of_perm (dict_set_perm _ _ hperm) (dict_set_keys_nodup _ _ hnd)
  unfold sign_params
  by_cases hg : img_key = [] ∨ sub_key = []
  · rw [if_pos hg, if_pos hg]
  · rw [if_neg hg, if_neg hg]
    cases get_mixin_key (img_key ++ sub_key) with
    | none => rfl
    | some mk =>
      dsimp only
      rw [hsort]

/-- Witness for `sign_params_insertion_order_independent` at the spec's own
example pair `{b: 1, a: 2}` versus `{a: 2, b: 1}`. -/
theorem sign_params_insertion_order_independent_witness :
    ([(("b".toList : PyStr), PyVal.intV 1), ("a".toList, PyVal.intV 2)] : PyDict).Perm
      [("a".toList, PyVal.intV 2), ("b".toList, PyVal.intV 1)] ∧
    (dict_keys [(("b".toList : PyStr), PyVal.intV 1), ("a".toList, PyVal.intV 2)]).Nodup ∧
    (sign_params [(("b".toList : PyStr), PyVal.intV 1), ("a".toList, PyVal.intV 2)]
        "aaaaaaaaaaaaaaaaaaaaaaaaaaaaaaaa".toList "bbbbbbbbbbbbbbbbbbbbbbbbbbbbbbbb".toList
        (fun s => s) 1700000000).2 =
      (sign_params [(("a".toList : PyStr), PyVal.intV 2), ("b".toList, PyVal.intV 1)]
        "aaaaaaaaaaaaaaaaaaaaaaaaaaaaaaaa".toList "bbbbbbbbbbbbbbbbbbbbbbbbbbbbbbbb".toList
        (fun s => s) 1700000000).2 :=
  ⟨by decide, by decide,
   sign_params_insertion_order_independent _ _ _ _ _ _ (by decide) (by decide)⟩

/-- C8 (amended): on the success path `sign_params` mutates the caller's
mapping by adding exactly the `wts` entry in place (the returned mapping is
a distinct sorted dict); it never adds a `w_rid` entry to the caller's
mapping. -/
theorem sign_params_caller_mapping_effect (params : PyDict) (img_key sub_key : PyStr)
    (md5_hex : PyStr → PyStr) (curr_time : Int)
    (himg : img_key ≠ []) (hsub : sub_key ≠ [])
    (hlen : 64 ≤ (img_key ++ sub_key).length)
    (hwrid : wrid_key ∉ dict_keys params) :
    (sign_params params img_key sub_key md5_hex curr_time).1 =
      dict_set params wts_key (.intV curr_time) ∧
    wrid_key ∉ dict_keys ((sign_params params img_key sub_key md5_hex curr_time).1) := by
  rw [sign_params_success params img_key sub_key md5_hex curr_time himg hsub hlen]
  refine ⟨rfl, ?_⟩
  show wrid_key ∉ dict_keys (dict_set params wts_key (.intV curr_time))
  unfold dict_set
  by_cases hany : params.any (fun kv => kv.1 == wts_key) = true
  · rw [if_pos hany, dict_keys_map_replace]
    exact hwrid
  · rw [if_neg hany]
    intro hmem
    rw [dict_keys, List.map_append] at hmem
    rcases List.mem_append.mp hmem with hmem | hmem
    · exact hwrid hmem
    · simp only [List.map_cons, List.map_nil, List.mem_singleton] at hmem
      exact absurd hmem (by decide)

/-- Witness for `sign_params_caller_mapping_effect` at concrete inputs. -/
theorem sign_params_caller_mapping_effect_witness :
    (("aaaaaaaaaaaaaaaaaaaaaaaaaaaaaaaa".toList : PyStr) ≠ []) ∧
    (("bbbbbbbbbbbbbbbbbbbbbbbbbbbbbbbb".toList : PyStr) ≠ []) ∧
    64 ≤ (("aaaaaaaaaaaaaaaaaaaaaaaaaaaaaaaa".toList : PyStr) ++
      "bbbbbbbbbbbbbbbbbbbbbbbbbbbbbbbb".toList).length ∧
    wrid_key ∉ dict_keys [("mid".toList, PyVal.intV 5)] ∧
    ((sign_params [("mid".toList, PyVal.intV 5)] "aaaaaaaaaaaaaaaaaaaaaaaaaaaaaaaa".toList
        "bbbbbbbbbbbbbbbbbbbbbbbbbbbbbbbb".toList (fun s => s) 1000).1 =
      dict_set [("mid".toList, PyVal.intV 5)] wts_key (.intV 1000) ∧
     wrid_key ∉ dict_keys ((sign_params [("mid".toList, PyVal.intV 5)]
        "aaaaaaaaaaaaaaaaaaaaaaaaaaaaaaaa".toList "bbbbbbbbbbbbbbbbbbbbbbbbbbbbbbbb".toList
        (fun s => s) 1000).1)) :=
  ⟨by decide, by decide, by decide, by decide,
   sign_params_caller_mapping_effect _ _ _ _ _ (by decide) (by decide) (by decide) (by decide)⟩

/-- C8 counterexample: `sign_params` is not pure with respect to its input:
after a call on a fresh concrete parameter dict the caller's mapping has
gained a `wts` entry. -/
theorem sign_params_adds_wts_to_caller :
    wts_key ∉ dict_keys [(("mid".toList : PyStr), PyVal.intV 5)] ∧
    (wts_key, PyVal.intV 1000) ∈
      (sign_params [(("mid".toList : PyStr), PyVal.intV 5)]
        "aaaaaaaaaaaaaaaaaaaaaaaaaaaaaaaa".toList "bbbbbbbbbbbbbbbbbbbbbbbbbbbbbbbb".toList
        (fun s => s) 1000).1 := by
  constructor
  · decide
  · rw [sign_params_success _ _ _ _ _ (by decide) (by decide) (by decide)]
    decide
